import Mathlib

/-!
Shallow embedding of the dota2-timer application core (src/src/main.rs).

Durations and instants are modelled as natural numbers of milliseconds:
every duration occurring in the source is either a whole number of seconds
or obtained by saturating subtraction of instants, so millisecond
resolution is exact.  The value of an `Instant::now()` reading taken
during one call of `update` is passed in as the parameter `rt`; the
payload of a `Message::Tick` is the timestamp delivered by the
subscription.  Filesystem access (`fs::read_to_string` followed by
`serde_yaml::from_str`) is modelled by an environment of type
`String → FileResult`.  An `update` result of `none` models a process
abort (the source calls `unwrap` on the YAML parse result inside the
`StartRestart` handler, which aborts on a malformed file).
-/

namespace DotaTimer

abbrev Duration := Nat

abbrev Instant := Nat

/-- Rust `Duration::from_secs`, in the millisecond representation. -/
def from_secs (s : Nat) : Duration := s * 1000

/-- Rust `Duration::as_secs`: whole seconds, rounding down. -/
def as_secs (d : Duration) : Nat := d / 1000

/-- The `TimerState` enum of the source: `Idle`, `CountingDown(Instant)`,
`Running { base_time, last_start }`, `Paused(Duration)`. -/
inductive TimerState where
  | idle : TimerState
  | countingDown : Instant → TimerState
  | running : Duration → Instant → TimerState
  | paused : Duration → TimerState
deriving DecidableEq, Repr

/-- The `TimerApp` struct of the source.  `audio_map` is the
`HashMap<Duration, String>` as an association list with millisecond keys;
`triggered_audio` is the `HashSet<Duration>` as a list. -/
structure TimerApp where
  state : TimerState
  yaml_files : List String
  selected_file : Option String
  audio_map : List (Duration × String)
  current_display : Duration
  triggered_audio : List Duration
deriving DecidableEq, Repr

/-- The `Message` enum of the source. -/
inductive Message where
  | startRestart : Message
  | pauseResume : Message
  | loadYaml : String → Message
  | tick : Instant → Message
deriving DecidableEq, Repr

/-- Outcome of reading and parsing one configuration file:
`unreadable` models `fs::read_to_string` returning `Err`; `malformed`
models a successful read whose contents `serde_yaml::from_str` rejects;
`parsed audio` models a successful parse of a `Config` whose `audio`
field maps whole-second offsets to cue paths. -/
inductive FileResult where
  | unreadable : FileResult
  | malformed : FileResult
  | parsed : List (Nat × String) → FileResult
deriving DecidableEq, Repr

abbrev Env := String → FileResult

/-- The `Default for TimerApp` instance; `get_yaml_files()` scans the
disk, so the file list is a parameter. -/
def default_app (files : List String) : TimerApp :=
  { state := TimerState.idle
    yaml_files := files
    selected_file := none
    audio_map := []
    current_display := 0
    triggered_audio := [] }

/-- Conversion of a parsed `Config.audio` map (second offsets) into the
`audio_map` field (`Duration::from_secs(k)` keys), as done in both the
`StartRestart` and the `LoadYaml` handler. -/
def config_to_map (audio : List (Nat × String)) : List (Duration × String) :=
  audio.map (fun kv => (from_secs kv.1, kv.2))

/-- `TimerApp::check_audio_triggers`: floor the displayed duration to a
whole-second trigger point; if the audio map contains it and it has not
fired in this cycle, record it as fired and emit the cue path (the source
hands the path to `play_audio`; here it is the second component). -/
def check_audio_triggers (s : TimerApp) : TimerApp × Option String :=
  let current_sec := as_secs s.current_display
  let trigger_point := from_secs current_sec
  if (s.audio_map.lookup trigger_point).isSome ∧ trigger_point ∉ s.triggered_audio then
    match s.audio_map.lookup trigger_point with
    | some path =>
        ({ s with triggered_audio := trigger_point :: s.triggered_audio }, some path)
    | none => (s, none)
  else
    (s, none)

/-- The `update` function of the source.  `rt` is the value an
`Instant::now()` call returns during this invocation; `env` is the
filesystem.  `none` models a process abort: the `StartRestart` handler
calls `unwrap` on the parse result of the selected file, so a readable
but malformed file aborts; every other path returns `some`. -/
def update (rt : Instant) (env : Env) (s : TimerApp) : Message → Option TimerApp
  | Message.startRestart =>
      let s1 := { s with state := TimerState.countingDown rt
                         current_display := from_secs 90
                         triggered_audio := [] }
      match s1.selected_file with
      | some file =>
          match env file with
          | FileResult.unreadable => some s1
          | FileResult.malformed => none
          | FileResult.parsed audio => some { s1 with audio_map := config_to_map audio }
      | none => some s1
  | Message.pauseResume =>
      match s.state with
      | TimerState.running base_time last_start =>
          let elapsed := base_time + (rt - last_start)
          some { s with state := TimerState.paused elapsed, current_display := elapsed }
      | TimerState.paused elapsed =>
          some { s with state := TimerState.running elapsed rt }
      | _ => some s
  | Message.loadYaml file =>
      let s1 := { s with selected_file := some file
                         audio_map := []
                         triggered_audio := [] }
      match env file with
      | FileResult.parsed audio => some { s1 with audio_map := config_to_map audio }
      | _ => some s1
  | Message.tick now =>
      match s.state with
      | TimerState.countingDown start_time =>
          let remaining := from_secs 60 - (now - start_time)
          let s1 := { s with current_display := remaining }
          if remaining = 0 then
            some { s1 with state := TimerState.running 0 rt }
          else
            some s1
      | TimerState.running base_time last_start =>
          let elapsed := base_time + (rt - last_start)
          some (check_audio_triggers { s with current_display := elapsed }).1
      | TimerState.paused elapsed =>
          some { s with current_display := elapsed }
      | TimerState.idle => some s

/-- Replay a list of events (clock reading, filesystem, message) from a
state; `none` as soon as one event aborts. -/
def run (s : TimerApp) : List (Instant × Env × Message) → Option TimerApp
  | [] => some s
  | e :: rest => (update e.1 e.2.1 s e.2.2).bind (fun s1 => run s1 rest)

/-- Repeatedly feed displayed durations to `check_audio_triggers`, as the
`Tick` handler does once per tick while `Running`; collect the fired
trigger points. -/
def poll_seq (s : TimerApp) : List Duration → TimerApp × List Duration
  | [] => (s, [])
  | d :: ds =>
      let p := check_audio_triggers { s with current_display := d }
      let rest := poll_seq p.1 ds
      match p.2 with
      | some _ => (rest.1, from_secs (as_secs d) :: rest.2)
      | none => rest

/-! ### Example states used by witnesses and counterexamples -/

/-- A state holding a one-entry trigger map (cue at second 4) and an empty
fired set. -/
def exMapState : TimerApp :=
  { state := TimerState.idle
    yaml_files := []
    selected_file := none
    audio_map := [(from_secs 4, "horn.wav")]
    current_display := 0
    triggered_audio := [] }

/-- `exMapState` with a configuration file selected. -/
def exSelState : TimerApp :=
  { exMapState with selected_file := some "strategy.yaml" }

/-! ### Helper lemmas about `check_audio_triggers` -/

theorem check_audio_triggers_fields (s : TimerApp) :
    (check_audio_triggers s).1.state = s.state ∧
    (check_audio_triggers s).1.current_display = s.current_display ∧
    (check_audio_triggers s).1.audio_map = s.audio_map ∧
    (check_audio_triggers s).1.selected_file = s.selected_file := by
  simp only [check_audio_triggers]
  split
  · split <;> exact ⟨rfl, rfl, rfl, rfl⟩
  · exact ⟨rfl, rfl, rfl, rfl⟩

theorem check_audio_triggers_fired_spec (s : TimerApp) :
    ((check_audio_triggers s).2 = none ∧
      (check_audio_triggers s).1.triggered_audio = s.triggered_audio) ∨
    (∃ path, (check_audio_triggers s).2 = some path ∧
      s.audio_map.lookup (from_secs (as_secs s.current_display)) = some path ∧
      from_secs (as_secs s.current_display) ∉ s.triggered_audio ∧
      (check_audio_triggers s).1.triggered_audio =
        from_secs (as_secs s.current_display) :: s.triggered_audio) := by
  simp only [check_audio_triggers]
  split
  · next hc =>
      split
      · next path hl => exact Or.inr ⟨path, rfl, hl, hc.2, rfl⟩
      · exact Or.inl ⟨rfl, rfl⟩
  · exact Or.inl ⟨rfl, rfl⟩

theorem check_audio_triggers_mono (s : TimerApp) (t : Duration)
    (h : t ∈ s.triggered_audio) : t ∈ (check_audio_triggers s).1.triggered_audio := by
  rcases check_audio_triggers_fired_spec s with ⟨_, he⟩ | ⟨p, _, _, _, he⟩ <;>
    rw [he] <;> simp [h]

/-! ### C1: configuration-load failure and the active map -/

/-- Claim C1, counterexample: the `LoadYaml` handler clears `audio_map`
before attempting the read, so a failed load does not leave the
previously active non-empty map unchanged, and a subsequent poll no
longer fires the original map's cue at second 4. -/
theorem C1_counterexample :
    update 0 (fun _ => FileResult.malformed) exMapState (Message.loadYaml "bad.yaml") =
      some { exMapState with
              selected_file := some "bad.yaml"
              audio_map := []
              triggered_audio := [] } ∧
    exMapState.audio_map = [(from_secs 4, "horn.wav")] ∧
    (check_audio_triggers { exMapState with current_display := from_secs 4 }).2 =
      some "horn.wav" ∧
    (check_audio_triggers { exMapState with
        selected_file := some "bad.yaml"
        audio_map := []
        triggered_audio := []
        current_display := from_secs 4 }).2 =
      none := by
  refine ⟨rfl, rfl, ?_, rfl⟩
  decide

/-- Claim C1, amended: a configuration load whose source cannot be read
or parsed replaces the previously active map with the empty map, so a
subsequent poll fires nothing. -/
theorem C1_load_failure_clears_map (rt : Instant) (env : Env) (s : TimerApp) (f : String)
    (h : env f = FileResult.unreadable ∨ env f = FileResult.malformed) :
    ∃ s1, update rt env s (Message.loadYaml f) = some s1 ∧ s1.audio_map = [] ∧
      (check_audio_triggers s1).2 = none := by
  refine ⟨{ s with selected_file := some f, audio_map := [], triggered_audio := [] },
    ?_, rfl, rfl⟩
  rcases h with h | h <;> simp [update, h]

/-- Witness for `C1_load_failure_clears_map` at a concrete failing load. -/
theorem C1_load_failure_clears_map_witness :
    ((fun _ => FileResult.malformed : Env) "bad.yaml" = FileResult.unreadable ∨
      (fun _ => FileResult.malformed : Env) "bad.yaml" = FileResult.malformed) ∧
    (∃ s1, update 0 (fun _ => FileResult.malformed) exMapState
        (Message.loadYaml "bad.yaml") = some s1 ∧ s1.audio_map = [] ∧
      (check_audio_triggers s1).2 = none) :=
  ⟨Or.inr rfl,
    C1_load_failure_clears_map 0 (fun _ => FileResult.malformed) exMapState "bad.yaml"
      (Or.inr rfl)⟩

/-! ### C2: countdown zero-crossing -/

/-- Claim C2: from `CountingDown a`, a tick at `tnow` sets the display to
the 60-second countdown length saturating-minus `tnow − a`, and
transitions to `Running` with base 0 exactly when `tnow − a ≥ 60` seconds;
any earlier tick leaves the phase `CountingDown a`. -/
theorem C2_countdown_zero_crossing (rt tnow a : Instant) (env : Env) (s : TimerApp)
    (h : s.state = TimerState.countingDown a) :
    ∃ s1, update rt env s (Message.tick tnow) = some s1 ∧
      s1.current_display = from_secs 60 - (tnow - a) ∧
      (if from_secs 60 ≤ tnow - a then s1.state = TimerState.running 0 rt
       else s1.state = TimerState.countingDown a) := by
  by_cases hz : from_secs 60 - (tnow - a) = 0
  · have hle : from_secs 60 ≤ tnow - a := Nat.le_of_sub_eq_zero hz
    refine ⟨{ s with
              current_display := from_secs 60 - (tnow - a)
              state := TimerState.running 0 rt }, ?_, rfl, ?_⟩
    · simp [update, h, hz]
    · simp [hle]
  · have hlt : ¬ from_secs 60 ≤ tnow - a := fun hle => hz (Nat.sub_eq_zero_of_le hle)
    refine ⟨{ s with current_display := from_secs 60 - (tnow - a) }, ?_, rfl, ?_⟩
    · simp [update, h, hz]
    · simp [hlt, h]

/-- A countdown state anchored at instant 0, for witnesses. -/
def exCountdown : TimerApp :=
  { exMapState with state := TimerState.countingDown 0 }

/-- Witness for `C2_countdown_zero_crossing` at the first tick past the
60-second mark. -/
theorem C2_countdown_zero_crossing_witness :
    exCountdown.state = TimerState.countingDown 0 ∧
    (∃ s1, update 5 (fun _ => FileResult.unreadable) exCountdown
        (Message.tick 60001) = some s1 ∧
      s1.current_display = from_secs 60 - (60001 - 0) ∧
      (if from_secs 60 ≤ 60001 - 0 then s1.state = TimerState.running 0 5
       else s1.state = TimerState.countingDown 0)) :=
  ⟨rfl, C2_countdown_zero_crossing 5 60001 0 (fun _ => FileResult.unreadable)
    exCountdown rfl⟩

/-! ### C7: a malformed selected file aborts the StartRestart handler -/

/-- Claim C7, failing input: with a selected configuration file whose
contents are readable but malformed, the `StartRestart` handler calls
`unwrap` on the failed parse and aborts the process (modelled as
`none`), contradicting the requirement that no error is fatal. -/
theorem C7_start_restart_aborts :
    update 0 (fun _ => FileResult.malformed) exSelState Message.startRestart = none := rfl

/-! ### C8: pause/resume leaves FiredSet and TriggerMap unchanged -/

/-- Claim C8: for every state, the pause/resume command succeeds and
leaves both the fired set and the active trigger map unchanged. -/
theorem C8_pause_resume_keeps_sets (rt : Instant) (env : Env) (s : TimerApp) :
    ∃ s1, update rt env s Message.pauseResume = some s1 ∧
      s1.triggered_audio = s.triggered_audio ∧ s1.audio_map = s.audio_map := by
  cases hst : s.state with
  | idle => exact ⟨s, by simp [update, hst], rfl, rfl⟩
  | countingDown a => exact ⟨s, by simp [update, hst], rfl, rfl⟩
  | running b ls =>
      exact ⟨{ s with
               state := TimerState.paused (b + (rt - ls))
               current_display := b + (rt - ls) }, by simp [update, hst], rfl, rfl⟩
  | paused e =>
      exact ⟨{ s with state := TimerState.running e rt }, by simp [update, hst], rfl, rfl⟩

/-! ### C9: restart displays 90 seconds against a 60-second countdown -/

/-- Claim C9: any successful start/restart sets the displayed duration to
90 seconds, which exceeds the 60-second countdown length used by the tick
handler, and any first tick after it drops the display to at most 60
seconds. -/
theorem C9_restart_display (rt rt2 tnow : Instant) (env : Env) (s s1 : TimerApp)
    (h : update rt env s Message.startRestart = some s1) :
    s1.current_display = from_secs 90 ∧ from_secs 60 < from_secs 90 ∧
      ∀ s2, update rt2 env s1 (Message.tick tnow) = some s2 →
        s2.current_display ≤ from_secs 60 := by
  have hfields : s1.current_display = from_secs 90 ∧
      s1.state = TimerState.countingDown rt := by
    simp only [update] at h
    cases hsel : s.selected_file with
    | none =>
        simp [hsel] at h
        rw [← h]
        exact ⟨rfl, rfl⟩
    | some f =>
        cases henv : env f with
        | unreadable =>
            simp [hsel, henv] at h
            rw [← h]
            exact ⟨rfl, rfl⟩
        | malformed => simp [hsel, henv] at h
        | parsed audio =>
            simp [hsel, henv] at h
            rw [← h]
            exact ⟨rfl, rfl⟩
  refine ⟨hfields.1, by decide, ?_⟩
  intro s2 h2
  simp only [update, hfields.2] at h2
  by_cases hz : from_secs 60 - (tnow - rt) = 0
  · rw [if_pos hz] at h2
    injection h2 with h2
    subst h2
    exact Nat.sub_le _ _
  · rw [if_neg hz] at h2
    injection h2 with h2
    subst h2
    exact Nat.sub_le _ _

/-- The state produced by a successful restart from `exMapState` at
instant 3. -/
def exStarted : TimerApp :=
  { exMapState with
    state := TimerState.countingDown 3
    current_display := from_secs 90
    triggered_audio := [] }

/-- Witness for `C9_restart_display` at a concrete restart. -/
theorem C9_restart_display_witness :
    update 3 (fun _ => FileResult.unreadable) exMapState Message.startRestart =
      some exStarted ∧
    (exStarted.current_display = from_secs 90 ∧ from_secs 60 < from_secs 90 ∧
      ∀ s2, update 4 (fun _ => FileResult.unreadable) exStarted (Message.tick 5) =
          some s2 → s2.current_display ≤ from_secs 60) :=
  ⟨rfl, C9_restart_display 3 4 5 (fun _ => FileResult.unreadable) exMapState exStarted rfl⟩

/-! ### C4: pause/resume round trip and frozen display -/

/-- Claim C4: resuming from `Paused frozen` yields
`Running { base := frozen, last_start := now }`; pausing from
`Running { base, last_start }` yields `Paused (base + (now − last_start))`;
and while paused, every tick keeps the displayed duration at the frozen
value with the phase unchanged. -/
theorem C4_pause_resume (rt : Instant) (env : Env) (s : TimerApp) :
    (∀ frozen, s.state = TimerState.paused frozen →
      update rt env s Message.pauseResume =
        some { s with state := TimerState.running frozen rt }) ∧
    (∀ b ls, s.state = TimerState.running b ls →
      update rt env s Message.pauseResume =
        some { s with
                state := TimerState.paused (b + (rt - ls))
                current_display := b + (rt - ls) }) ∧
    (∀ frozen tnow, s.state = TimerState.paused frozen →
      update rt env s (Message.tick tnow) =
        some { s with current_display := frozen }) := by
  refine ⟨?_, ?_, ?_⟩
  · intro frozen h
    simp [update, h]
  · intro b ls h
    simp [update, h]
  · intro frozen tnow h
    simp [update, h]

/-- A paused state frozen at 15 seconds, for witnesses. -/
def exPaused : TimerApp :=
  { exMapState with state := TimerState.paused (from_secs 15) }

/-- Witness for `C4_pause_resume`: resuming `exPaused` at instant 7. -/
theorem C4_pause_resume_witness :
    update 7 (fun _ => FileResult.unreadable) exPaused Message.pauseResume =
      some { exPaused with state := TimerState.running (from_secs 15) 7 } :=
  (C4_pause_resume 7 (fun _ => FileResult.unreadable) exPaused).1 (from_secs 15) rfl

/-! ### C5: exactly restart and load clear FiredSet; refire afterwards -/

/-- Claim C5: a successful start/restart and a configuration load leave
the fired set empty; pause/resume leaves it unchanged and a tick never
removes a fired offset; and from an empty fired set, a poll whose
floored displayed second is in the map fires its cue again. -/
theorem C5_restart_clears_fired (rt : Instant) (env : Env) (s : TimerApp) (f : String) :
    (∀ s1, update rt env s Message.startRestart = some s1 → s1.triggered_audio = []) ∧
    (∀ s1, update rt env s (Message.loadYaml f) = some s1 → s1.triggered_audio = []) ∧
    (∀ s1, update rt env s Message.pauseResume = some s1 →
      s1.triggered_audio = s.triggered_audio) ∧
    (∀ tnow s1, update rt env s (Message.tick tnow) = some s1 →
      ∀ t ∈ s.triggered_audio, t ∈ s1.triggered_audio) ∧
    (s.triggered_audio = [] →
      ∀ path, s.audio_map.lookup (from_secs (as_secs s.current_display)) = some path →
        (check_audio_triggers s).2 = some path) := by
  refine ⟨?_, ?_, ?_, ?_, ?_⟩
  · intro s1 h
    simp only [update] at h
    cases hsel : s.selected_file with
    | none =>
        simp [hsel] at h
        rw [← h]
    | some f2 =>
        cases henv : env f2 with
        | unreadable =>
            simp [hsel, henv] at h
            rw [← h]
        | malformed => simp [hsel, henv] at h
        | parsed audio =>
            simp [hsel, henv] at h
            rw [← h]
  · intro s1 h
    simp only [update] at h
    cases henv : env f with
    | unreadable =>
        simp [henv] at h
        rw [← h]
    | malformed =>
        simp [henv] at h
        rw [← h]
    | parsed audio =>
        simp [henv] at h
        rw [← h]
  · intro s1 h
    cases hst : s.state with
    | idle =>
        simp [update, hst] at h
        rw [← h]
    | countingDown a =>
        simp [update, hst] at h
        rw [← h]
    | running b ls =>
        simp [update, hst] at h
        rw [← h]
    | paused e =>
        simp [update, hst] at h
        rw [← h]
  · intro tnow s1 h t ht
    cases hst : s.state with
    | idle =>
        simp [update, hst] at h
        rw [← h]
        exact ht
    | paused e =>
        simp [update, hst] at h
        rw [← h]
        exact ht
    | countingDown a =>
        simp only [update, hst] at h
        by_cases hz : from_secs 60 - (tnow - a) = 0
        · rw [if_pos hz] at h
          injection h with h
          subst h
          exact ht
        · rw [if_neg hz] at h
          injection h with h
          subst h
          exact ht
    | running b ls =>
        simp only [update, hst] at h
        injection h with h
        subst h
        exact check_audio_triggers_mono _ t ht
  · intro hempty path hl
    have hc : (s.audio_map.lookup (from_secs (as_secs s.current_display))).isSome = true ∧
        from_secs (as_secs s.current_display) ∉ s.triggered_audio := by
      refine ⟨by rw [hl]; rfl, ?_⟩
      rw [hempty]
      simp
    simp only [check_audio_triggers]
    rw [if_pos hc, hl]

/-- A running state at second 4 with the cue at second 4 already fired. -/
def exFiredState : TimerApp :=
  { exMapState with
    state := TimerState.running 0 0
    current_display := from_secs 4
    triggered_audio := [from_secs 4] }

/-- Witness for `C5_restart_clears_fired`: restarting `exFiredState`
empties the fired set. -/
theorem C5_restart_clears_fired_witness :
    ({ exFiredState with
        state := TimerState.countingDown 0
        current_display := from_secs 90
        triggered_audio := [] } : TimerApp).triggered_audio = [] :=
  (C5_restart_clears_fired 0 (fun _ => FileResult.unreadable) exFiredState "f").1
    { exFiredState with
      state := TimerState.countingDown 0
      current_display := from_secs 90
      triggered_audio := [] } rfl

/-! ### C6: handling the same tick twice is idempotent -/

/-- Claim C6: handling the same tick twice (same tick timestamp and same
clock reading) always succeeds, produces the same displayed duration on
both calls, and the repeated call leaves the phase identical, so the
CountingDown-to-Running transition is not re-triggered. -/
theorem C6_tick_idempotent (rt tnow : Instant) (env : Env) (s : TimerApp) :
    ∃ s1 s2, update rt env s (Message.tick tnow) = some s1 ∧
      update rt env s1 (Message.tick tnow) = some s2 ∧
      s2.current_display = s1.current_display ∧ s2.state = s1.state := by
  cases hst : s.state with
  | idle =>
      exact ⟨s, s, by simp [update, hst], by simp [update, hst], rfl, rfl⟩
  | paused e =>
      refine ⟨{ s with current_display := e }, { s with current_display := e },
        by simp [update, hst], by simp [update, hst], rfl, rfl⟩
  | running b ls =>
      have hstX : (check_audio_triggers
          { s with current_display := b + (rt - ls) }).1.state =
            TimerState.running b ls := by
        rw [(check_audio_triggers_fields _).1]
        simpa using hst
      have hdX : (check_audio_triggers
          { s with current_display := b + (rt - ls) }).1.current_display =
            b + (rt - ls) := by
        rw [(check_audio_triggers_fields _).2.1]
      refine ⟨(check_audio_triggers { s with current_display := b + (rt - ls) }).1,
        (check_audio_triggers
          { (check_audio_triggers { s with current_display := b + (rt - ls) }).1 with
            current_display := b + (rt - ls) }).1,
        by simp [update, hst], by simp only [update, hstX], ?_, ?_⟩
      · rw [(check_audio_triggers_fields _).2.1]
        simp [hdX]
      · rw [(check_audio_triggers_fields _).1]
  | countingDown a =>
      by_cases hz : from_secs 60 - (tnow - a) = 0
      · refine ⟨{ s with
            current_display := from_secs 60 - (tnow - a)
            state := TimerState.running 0 rt },
          (check_audio_triggers
            { ({ s with
                current_display := from_secs 60 - (tnow - a)
                state := TimerState.running 0 rt } : TimerApp) with
              current_display := 0 + (rt - rt) }).1, ?_, rfl, ?_, ?_⟩
        · simp only [update, hst]
          rw [if_pos hz]
        · rw [(check_audio_triggers_fields _).2.1]
          simp [hz]
        · rw [(check_audio_triggers_fields _).1]
      · refine ⟨{ s with current_display := from_secs 60 - (tnow - a) },
          { s with current_display := from_secs 60 - (tnow - a) },
          ?_, ?_, rfl, rfl⟩
        · simp [update, hst, hz]
        · simp [update, hst, hz]

/-! ### C3: no double fire between two clearings of FiredSet -/

theorem poll_seq_count_zero (t : Duration) :
    ∀ (ds : List Duration) (s : TimerApp), t ∈ s.triggered_audio →
      List.count t (poll_seq s ds).2 = 0 := by
  intro ds
  induction ds with
  | nil => intro s _; simp [poll_seq]
  | cons d ds ih =>
      intro s h
      simp only [poll_seq]
      rcases check_audio_triggers_fired_spec { s with current_display := d } with
        ⟨hn, he⟩ | ⟨p, hs, hl, hnm, he⟩
      · simp only [hn]
        exact ih _ (by rw [he]; exact h)
      · simp only [hs]
        have hne : from_secs (as_secs d) ≠ t := by
          intro he2
          exact hnm (he2 ▸ h)
        rw [List.count_cons_of_ne (Ne.symm hne)]
        exact ih _ (by rw [he]; exact List.mem_cons_of_mem _ h)

theorem poll_seq_count_le (t : Duration) :
    ∀ (ds : List Duration) (s : TimerApp), List.count t (poll_seq s ds).2 ≤ 1 := by
  intro ds
  induction ds with
  | nil => intro s; simp [poll_seq]
  | cons d ds ih =>
      intro s
      simp only [poll_seq]
      rcases check_audio_triggers_fired_spec { s with current_display := d } with
        ⟨hn, he⟩ | ⟨p, hs, hl, hnm, he⟩
      · simp only [hn]
        exact ih _
      · simp only [hs]
        by_cases ht : from_secs (as_secs d) = t
        · rw [ht, List.count_cons_self]
          have h0 : List.count t
              (poll_seq (check_audio_triggers { s with current_display := d }).1 ds).2 = 0 :=
            poll_seq_count_zero t ds _ (by rw [he, ht]; exact List.mem_cons_self _ _)
          rw [h0]
        · rw [List.count_cons_of_ne (Ne.symm ht)]
          exact ih _

/-- Claim C3: for any fixed trigger map, any starting fired set and any
monotonic sequence of displayed durations polled between two clearings of
the fired set, each trigger point fires at most once. -/
theorem C3_no_double_fire (s : TimerApp) (ds : List Duration) (t : Duration)
    (hmono : List.Chain' (fun a b => a ≤ b) ds) :
    List.count t (poll_seq s ds).2 ≤ 1 :=
  poll_seq_count_le t ds s

/-- Witness for `C3_no_double_fire`: five monotone displayed durations
straddling second 4 fire the second-4 cue at most once. -/
theorem C3_no_double_fire_witness :
    List.Chain' (fun a b => a ≤ b) [3991, 4002, 4500, 4998, 5010] ∧
    List.count (from_secs 4) (poll_seq exMapState [3991, 4002, 4500, 4998, 5010]).2 ≤ 1 :=
  ⟨by norm_num [List.chain'_cons],
    C3_no_double_fire exMapState [3991, 4002, 4500, 4998, 5010] (from_secs 4)
      (by norm_num [List.chain'_cons])⟩

/-! ### C10: Idle occurs only as the initial state -/

theorem update_startRestart_not_idle (rt : Instant) (env : Env) (s s1 : TimerApp)
    (h : update rt env s Message.startRestart = some s1) :
    s1.state ≠ TimerState.idle := by
  simp only [update] at h
  cases hsel : s.selected_file with
  | none =>
      simp [hsel] at h
      rw [← h]
      simp
  | some f =>
      cases henv : env f with
      | unreadable =>
          simp [hsel, henv] at h
          rw [← h]
          simp
      | malformed => simp [hsel, henv] at h
      | parsed audio =>
          simp [hsel, henv] at h
          rw [← h]
          simp

theorem update_not_idle (rt : Instant) (env : Env) (s s1 : TimerApp) (m : Message)
    (hs : s.state ≠ TimerState.idle) (h : update rt env s m = some s1) :
    s1.state ≠ TimerState.idle := by
  cases m with
  | startRestart => exact update_startRestart_not_idle rt env s s1 h
  | pauseResume =>
      cases hst : s.state with
      | idle => exact absurd hst hs
      | countingDown a =>
          simp [update, hst] at h
          rw [← h, hst]
          simp
      | running b ls =>
          simp [update, hst] at h
          rw [← h]
          simp
      | paused e =>
          simp [update, hst] at h
          rw [← h]
          simp
  | loadYaml f =>
      simp only [update] at h
      cases henv : env f with
      | unreadable =>
          simp [henv] at h
          rw [← h]
          simpa using hs
      | malformed =>
          simp [henv] at h
          rw [← h]
          simpa using hs
      | parsed audio =>
          simp [henv] at h
          rw [← h]
          simpa using hs
  | tick tnow =>
      cases hst : s.state with
      | idle => exact absurd hst hs
      | paused e =>
          simp [update, hst] at h
          rw [← h]
          simp [hst]
      | countingDown a =>
          simp only [update, hst] at h
          by_cases hz : from_secs 60 - (tnow - a) = 0
          · rw [if_pos hz] at h
            injection h with h
            subst h
            simp
          · rw [if_neg hz] at h
            injection h with h
            subst h
            simp [hst]
      | running b ls =>
          simp only [update, hst] at h
          injection h with h
          subst h
          rw [(check_audio_triggers_fields _).1]
          simp [hst]

theorem run_not_idle :
    ∀ (evs : List (Instant × Env × Message)) (s s1 : TimerApp),
      s.state ≠ TimerState.idle → run s evs = some s1 →
      s1.state ≠ TimerState.idle := by
  intro evs
  induction evs with
  | nil =>
      intro s s1 hs h
      simp [run] at h
      rw [← h]
      exact hs
  | cons e evs ih =>
      intro s s1 hs h
      simp only [run] at h
      rcases Option.bind_eq_some.mp h with ⟨s2, hu, h2⟩
      exact ih s2 s1 (update_not_idle e.1 e.2.1 s s2 e.2.2 hs hu) h2

theorem run_after_start :
    ∀ (evs : List (Instant × Env × Message)) (s s1 : TimerApp),
      run s evs = some s1 → (∃ e ∈ evs, e.2.2 = Message.startRestart) →
      s1.state ≠ TimerState.idle := by
  intro evs
  induction evs with
  | nil =>
      intro s s1 _ hmem
      rcases hmem with ⟨e, he, _⟩
      exact absurd he (List.not_mem_nil e)
  | cons e0 evs ih =>
      intro s s1 h hmem
      simp only [run] at h
      rcases Option.bind_eq_some.mp h with ⟨s2, hu, h2⟩
      rcases hmem with ⟨e, he, hstart⟩
      rcases List.mem_cons.mp he with rfl | he2
      · rw [hstart] at hu
        exact run_not_idle evs s2 s1 (update_startRestart_not_idle e.1 e.2.1 s s2 hu) h2
      · exact ih s2 s1 h2 ⟨e, he2, hstart⟩

/-- Claim C10: starting from the default (Idle) application state, any
successfully handled event sequence containing at least one
start/restart command ends in a non-Idle phase: no event ever
transitions back to Idle. -/
theorem C10_idle_only_initial (files : List String)
    (evs : List (Instant × Env × Message)) (s1 : TimerApp)
    (h : run (default_app files) evs = some s1)
    (hstart : ∃ e ∈ evs, e.2.2 = Message.startRestart) :
    s1.state ≠ TimerState.idle :=
  run_after_start evs (default_app files) s1 h hstart

/-- The state reached from the default application state by one
start/restart at instant 0. -/
def exAfterStart : TimerApp :=
  { state := TimerState.countingDown 0
    yaml_files := []
    selected_file := none
    audio_map := []
    current_display := from_secs 90
    triggered_audio := [] }

/-- Witness for `C10_idle_only_initial` on a one-event history. -/
theorem C10_idle_only_initial_witness :
    run (default_app []) [(0, fun _ => FileResult.unreadable, Message.startRestart)] =
      some exAfterStart ∧ exAfterStart.state ≠ TimerState.idle :=
  ⟨rfl, C10_idle_only_initial [] [(0, fun _ => FileResult.unreadable, Message.startRestart)]
    exAfterStart rfl
    ⟨(0, fun _ => FileResult.unreadable, Message.startRestart),
      List.mem_singleton.mpr rfl, rfl⟩⟩

end DotaTimer
